import Mathlib

/-!
# Verification of the ToolHop tool-use agent tutorial

Shallow embedding of the program in `docs/docs/tutorials/tool_use/index.ipynb`:
the evaluation `metric`, the `wrap_function_with_timeout` helper, the
`Agent.forward` ReAct loop, the per-example tool registry construction
(`func_dict`), and the seeded dataset shuffle/split.

Python strings are modelled as Lean `String`s (operating on `List Char`),
Python `dict`s as association lists, machine behaviour of the external
`func_timeout` library and of `random.Random` by explicit definitions noted
in the corresponding doc comments.
-/

set_option autoImplicit false

namespace ToolUse

/-! ## Python string primitives used by the notebook -/

/-- Python `str.rstrip(chars)`: remove all trailing characters that belong to
the character set `chars` (NOT suffix removal). -/
def pyRstrip (chars : List Char) (s : String) : String :=
  String.mk ((s.toList.reverse.dropWhile (fun c => chars.contains c)).reverse)

/-- Python `str.replace(old, "")` for a single-character `old`: remove every
occurrence of the character. -/
def pyRemoveChar (c : Char) (s : String) : String :=
  String.mk (s.toList.filter (fun d => !(d == c)))

/-- Python `str.lower`, restricted to ASCII as Lean's `Char.toLower` is. -/
def pyLower (s : String) : String :=
  String.mk (s.toList.map Char.toLower)

/-- Python `str.strip(c)` for a one-character set: remove all leading and
trailing occurrences of `c`. -/
def pyStripChar (c : Char) (s : String) : String :=
  String.mk ((((s.toList.dropWhile (· == c)).reverse.dropWhile (· == c)).reverse))

/-! ## The evaluation metric (notebook cell 9)

```python
def metric(example, pred, trace=None):
    gold = str(example.answer).rstrip(".0").replace(",", "").lower()
    pred = str(pred.answer).rstrip(".0").replace(",", "").lower()
    return pred == gold
```
-/

/-- The normalization pipeline the code applies to each answer string:
`.rstrip(".0").replace(",", "").lower()`. -/
def answerNorm (s : String) : String :=
  pyLower (pyRemoveChar ',' (pyRstrip ['.', '0'] s))

/-- `metric` from the notebook, on the two answer strings. -/
def metric (goldAnswer predAnswer : String) : Bool :=
  answerNorm predAnswer == answerNorm goldAnswer

/-- Normalization as the spec's words describe it: strip a trailing `".0"`
suffix (and nothing more than that suffix), remove commas, lowercase.
Stated only to be compared against `answerNorm`, which is the code's. -/
def specSuffixNorm (s : String) : String :=
  let l := s.toList
  let l1 := if l.reverse.take 2 = ['0', '.'] then (l.take (l.length - 2)) else l
  String.mk ((l1.filter (fun d => !(d == ','))).map Char.toLower)

/-- Strip ALL trailing characters that are `'.'` or `'0'`, written by direct
recursion (independently of `pyRstrip`), for the amended form of claim C2. -/
def stripTrailingDotZero : List Char → List Char
  | [] => []
  | c :: cs =>
    let rest := stripTrailingDotZero cs
    if rest.isEmpty && (c == '.' || c == '0') then [] else c :: rest

/-- The amended normalization: strip all trailing `'.'`/`'0'` characters,
remove commas, lowercase. -/
def amendedNorm (s : String) : String :=
  String.mk (((stripTrailingDotZero s.toList).filter (fun d => !(d == ','))).map Char.toLower)

/-! ## Python values and tool execution outcomes -/

/-- A Python value, as far as the agent loop needs to distinguish them. -/
inductive PyVal where
  | vNone
  | vStr (s : String)
  | vInt (n : Int)
  deriving DecidableEq, Repr

/-- Keyword arguments of one tool call (a Python `dict` as an assoc list). -/
abbrev Args := List (String × PyVal)

/-- What executing a tool body with given arguments does: either it returns a
value or it raises a Python `Exception` carrying message `str(e)`. -/
inductive ExecResult where
  | ok (v : PyVal)
  | exn (msg : String)
  deriving DecidableEq, Repr

/-- One tool invocation: how many time-units the body runs before completing,
and what it does on completion. The duration makes the `func_timeout` bound
expressible. -/
structure ToolExec where
  duration : Nat
  result : ExecResult
  deriving DecidableEq, Repr

/-- A tool callable: keyword arguments determine the execution behaviour. -/
abbrev Tool := Args → ToolExec

/-- The structured `{"return_value": ..., "errors": ...}` dict built by the
wrapper in `wrap_function_with_timeout`. A Python `None` in `return_value` is
`PyVal.vNone`; `errors` is `none` exactly when the key holds Python `None`. -/
structure FnOutput where
  return_value : PyVal
  errors : Option String
  deriving DecidableEq, Repr

/-- Exceptions that can escape to the caller in the embedded fragment.
`functionTimedOut` models `func_timeout.FunctionTimedOut`, which derives from
`BaseException` (deliberately, per that library's documentation) so that an
`except Exception` clause does not catch it. `keyError` models a failed
`dict` lookup, `nameError` an unbound local variable read. -/
inductive PyError where
  | functionTimedOut
  | keyError (key : String)
  | nameError (variable_name : String)
  deriving DecidableEq, Repr

/-! ## `wrap_function_with_timeout` (notebook cell 9)

```python
def wrap_function_with_timeout(fn):
    @func_set_timeout(10)
    def wrapper(*args, **kwargs):
        try:
            return {"return_value": fn(*args, **kwargs), "errors": None}
        except Exception as e:
            return {"return_value": None, "errors": str(e)}

    return wrapper
```

The `func_timeout` library runs the decorated body in a stoppable thread;
if the body has not finished after 10 time-units it aborts the thread and
raises `FunctionTimedOut` — a `BaseException` subclass — in the caller.
Hence an in-time body produces the structured dict (exceptions from `fn`
are `Exception`s and are caught), while an overrun produces a raise that
the inner `except Exception` cannot intercept. -/

/-- Calling the wrapped version of a tool whose invocation behaves as
`te`: within the 10-unit budget the structured dict is returned, an
exception from the body degrades to a populated `errors` field, and an
overrun raises `FunctionTimedOut` to the caller. -/
def wrap_function_with_timeout (te : ToolExec) : Except PyError FnOutput :=
  if te.duration > 10 then
    .error .functionTimedOut
  else
    match te.result with
    | .ok v => .ok ⟨v, none⟩
    | .exn msg => .ok ⟨.vNone, some msg⟩

/-! ## The `finish` tool (notebook cell 7)

```python
def finish(answer: str):
    """Conclude the trajectory and return the final answer."""
    return answer
```

Invoked by the loop as `fn(**pred.args)`: exactly the keyword `answer` is
accepted, anything else is a `TypeError` raised at call time (and caught by
the wrapper). The body is a pure echo, so it completes immediately. -/

/-- The `finish` tool as a `Tool`. -/
def finishTool : Tool := fun args =>
  match args with
  | [(k, v)] => if k = "answer" then ⟨0, .ok v⟩ else ⟨0, .exn "TypeError"⟩
  | _ => ⟨0, .exn "TypeError"⟩

/-! ## The agent loop (notebook cell 11) -/

/-- One trajectory step:
`dict(reasoning=..., selected_fn=..., args=..., **fn_output)`. -/
structure Step where
  reasoning : String
  selected_fn : String
  args : Args
  return_value : PyVal
  errors : Option String
  deriving DecidableEq, Repr

/-- The structured output of one `self.react(...)` call. -/
structure ReactPred where
  reasoning : String
  next_selected_fn : String
  args : Args

/-- The reasoning component: for each trajectory-so-far it yields the next
structured prediction. (Question and tool metadata are fixed within one run,
so indexing by the trajectory captures every possible behaviour.) -/
abbrev ReactFn := List Step → ReactPred

/-- The final `dspy.Prediction(answer=..., trajectory=...)`. -/
structure Prediction where
  answer : PyVal
  trajectory : List Step
  deriving DecidableEq, Repr

/-- `selected_fn = pred.next_selected_fn.strip('"').strip("'")`. -/
def stripQuotes (s : String) : String :=
  pyStripChar (Char.ofNat 39) (pyStripChar '"' s)

/-- Python `d.get(k)` / `d[k]` lookup on a string-keyed dict. -/
def pyDictGet {α : Type} : List (String × α) → String → Option α
  | [], _ => none
  | (k, v) :: rest, name => if k = name then some v else pyDictGet rest name

/-- The body of `Agent.forward`'s `for _ in range(self.max_steps)` loop.
`fuel` is the number of remaining iterations; `lastOutput` is the current
value of the Python local `fn_output` (`none` while it is still unbound).
When the fuel runs out the function builds the final
`dspy.Prediction(answer=fn_output.get("return_value", ''), trajectory=...)`;
reading `fn_output` before any iteration bound it is an
`UnboundLocalError`, modelled as `PyError.nameError "fn_output"`. An
unknown selected name makes `functions[selected_fn]` raise `KeyError`;
a timed-out tool propagates `FunctionTimedOut`. -/
def forwardLoop (react : ReactFn) (functions : List (String × Tool)) :
    Nat → List Step → Option FnOutput → Except PyError Prediction
  | 0, trajectory, lastOutput =>
    match lastOutput with
    | none => .error (.nameError "fn_output")
    | some out => .ok ⟨out.return_value, trajectory⟩
  | fuel + 1, trajectory, _ =>
    let pred := react trajectory
    let selected_fn := stripQuotes pred.next_selected_fn
    match pyDictGet functions selected_fn with
    | none => .error (.keyError selected_fn)
    | some tool =>
      match wrap_function_with_timeout (tool pred.args) with
      | .error e => .error e
      | .ok out =>
        let step : Step :=
          ⟨pred.reasoning, selected_fn, pred.args, out.return_value, out.errors⟩
        let trajectory := trajectory ++ [step]
        if selected_fn = "finish" then .ok ⟨out.return_value, trajectory⟩
        else forwardLoop react functions fuel trajectory (some out)

/-- The agent module: holds `max_steps` (an `Int`, since the Python
constructor accepts any integer; `range(n)` iterates `max n 0` times). -/
structure Agent where
  max_steps : Int := 5

/-- `Agent.forward(self, question, functions)`. The `question` and the
reflected tool metadata only flow into `self.react`, which is abstracted by
the `react` oracle, so they are absorbed into it. -/
def Agent.forward (ag : Agent) (react : ReactFn)
    (functions : List (String × Tool)) : Except PyError Prediction :=
  forwardLoop react functions ag.max_steps.toNat [] none

/-! ## Tool registry construction (notebook cell 7)

```python
func_dict = {}
for func_code in datapoint["functions"]:
    cleaned_code = func_code.rsplit("\n\n# Example usage", 1)[0]
    fn_name = re.search(r"^\s*def\s+([a-zA-Z0-9_]+)\s*\(", cleaned_code)
    fn_name = fn_name.group(1) if fn_name else None

    if not fn_name:
        continue

    local_vars = {}
    exec(cleaned_code, {}, local_vars)
    fn_obj = local_vars.get(fn_name)

    if callable(fn_obj):
        func_dict[fn_name] = fn_obj
        assert fn_obj not in fns2code, f"Duplicate function found: {fn_name}"
        fns2code[fn_obj] = (fn_name, cleaned_code)

func_dict["finish"] = finish
```

`exec` of arbitrary Python source is abstracted by an oracle
`execEnv : String → List (String × PyObj)` giving the `local_vars` binding
produced for a given cleaned source string; everything else (the `rsplit`,
the regex, the dict updates, the assert) is embedded directly. -/

/-- A Python object as the registry sees it: an identity (for the
`fn_obj not in fns2code` check, which compares function objects) and
whether `callable(obj)` holds. -/
structure PyObj where
  oid : Nat
  isCallable : Bool
  deriving DecidableEq, Repr

/-- Python `d[k] = v`: overwrite in place, or append a new binding. -/
def dictSet {α : Type} : List (String × α) → String → α → List (String × α)
  | [], k, v => [(k, v)]
  | (k', v') :: rest, k, v =>
    if k' = k then (k, v) :: rest else (k', v') :: dictSet rest k v

/-- Does the list start with the pattern? -/
def startsWithL : List Char → List Char → Bool
  | _, [] => true
  | [], _ :: _ => false
  | c :: cs, p :: ps => c == p && startsWithL cs ps

/-- Index of the rightmost occurrence of the (non-empty) pattern, with `i`
the index of the current position. -/
def lastOccAux (pat : List Char) : List Char → Nat → Option Nat
  | [], _ => none
  | l :: rest, i =>
    match lastOccAux pat rest (i + 1) with
    | some j => some j
    | none => if startsWithL (l :: rest) pat then some i else none

/-- Python `s.rsplit(sep, 1)[0]`: everything before the rightmost occurrence
of `sep` (or `s` itself when `sep` does not occur). -/
def rsplitOnce (sep s : String) : String :=
  match lastOccAux sep.toList s.toList 0 with
  | none => s
  | some i => String.mk (s.toList.take i)

/-- `cleaned_code = func_code.rsplit("\n\n# Example usage", 1)[0]`. -/
def cleanCode (func_code : String) : String :=
  rsplitOnce "\n\n# Example usage" func_code

/-- Python `\s` on ASCII input. -/
def isPySpace (c : Char) : Bool :=
  c == ' ' || c == '\t' || c == '\n' || c == '\r' || c == '\x0b' || c == '\x0c'

/-- The regex word class `[a-zA-Z0-9_]`. -/
def isWordChar (c : Char) : Bool :=
  c.isAlpha || c.isDigit || c == '_'

/-- `re.search(r"^\s*def\s+([a-zA-Z0-9_]+)\s*\(", cleaned_code)` and
extraction of group 1. Without `re.MULTILINE` the `^` anchors at the start
of the string, so the match is: optional whitespace, `def`, at least one
whitespace, the name, optional whitespace, `(`. Greedy matching never needs
to backtrack here because the word class and `\s` are disjoint and neither
contains `(`. -/
def parseFnName (s : String) : Option String :=
  let l := s.toList.dropWhile isPySpace
  if l.take 3 = ['d', 'e', 'f'] then
    match l.drop 3 with
    | [] => none
    | c :: _ =>
      if isPySpace c then
        let r2 := (l.drop 3).dropWhile isPySpace
        let nm := r2.takeWhile isWordChar
        if nm.isEmpty then none
        else
          match (r2.drop nm.length).dropWhile isPySpace with
          | '(' :: _ => some (String.mk nm)
          | _ => none
      else none
  else none

/-- The two mutable registries threaded through the loop body. -/
structure RegistryState where
  func_dict : List (String × PyObj)
  fns2code : List (PyObj × String × String)
  deriving DecidableEq, Repr

/-- One iteration of the `for func_code in datapoint["functions"]` loop.
An `Except.error` is the `assert` for a duplicate function object firing. -/
def processEntry (execEnv : String → List (String × PyObj))
    (st : RegistryState) (func_code : String) : Except String RegistryState :=
  let cleaned_code := cleanCode func_code
  match parseFnName cleaned_code with
  | none => .ok st
  | some fn_name =>
    match pyDictGet (execEnv cleaned_code) fn_name with
    | none => .ok st
    | some fn_obj =>
      if fn_obj.isCallable then
        if st.fns2code.any (fun e => e.1 == fn_obj) then
          .error ("Duplicate function found: " ++ fn_name)
        else
          .ok ⟨dictSet st.func_dict fn_name fn_obj,
               st.fns2code ++ [(fn_obj, fn_name, cleaned_code)]⟩
      else .ok st

/-- The whole loop over a datapoint's function sources. -/
def processEntries (execEnv : String → List (String × PyObj)) :
    RegistryState → List String → Except String RegistryState
  | st, [] => .ok st
  | st, code :: rest =>
    match processEntry execEnv st code with
    | .error e => .error e
    | .ok st' => processEntries execEnv st' rest

/-- The object the module-level `finish` function is bound to. -/
def finishObj : PyObj := ⟨0, true⟩

/-- Building `func_dict` for one datapoint: run the loop from empty
registries, then `func_dict["finish"] = finish`. -/
def buildFuncDict (execEnv : String → List (String × PyObj))
    (codes : List String) : Except String (List (String × PyObj)) :=
  match processEntries execEnv ⟨[], []⟩ codes with
  | .error e => .error e
  | .ok st => .ok (dictSet st.func_dict "finish" finishObj)

/-! ## Dataset shuffle and split (notebook cells 5 and 7)

```python
random.Random(0).shuffle(data)
...
trainset, devset, testset = examples[:100], examples[100:400], examples[400:]
```

`random.Random(seed).shuffle(x)` is CPython's Fisher–Yates:

```python
for i in reversed(range(1, len(x))):
    j = self._randbelow(i + 1)
    x[i], x[j] = x[j], x[i]
```

The Mersenne-Twister `_randbelow` is abstracted as any deterministic seeded
generator: a pure function from a state to a value below the bound plus the
next state, with the initial state a pure function of the seed. -/

/-- A deterministic seeded pseudo-random generator. -/
structure PRNG where
  seedState : Nat → Nat
  randbelow : Nat → Nat → Nat × Nat
  randbelow_lt : ∀ st n, 0 < n → (randbelow st n).1 < n

/-- `x[i], x[j] = x[j], x[i]` on a list. -/
def listSwap {α : Type} (l : List α) (i j : Nat) : List α :=
  match l.get? i, l.get? j with
  | some a, some b => (l.set i b).set j a
  | _, _ => l

/-- The Fisher–Yates loop; the extra `Nat` argument is the current index
`i`, walked down from `len(x) - 1` to `1`. -/
def shuffleAux {α : Type} (g : PRNG) : List α → Nat → Nat → List α
  | l, _, 0 => l
  | l, st, i + 1 =>
    let jst := g.randbelow st (i + 2)
    shuffleAux g (listSwap l (i + 1) jst.1) jst.2 i

/-- `random.Random(seed).shuffle(data)` as a pure function. -/
def pyShuffle {α : Type} (g : PRNG) (seed : Nat) (data : List α) : List α :=
  shuffleAux g data (g.seedState seed) (data.length - 1)

/-- The dataset-loading stage: seeded shuffle, then
`examples[:100], examples[100:400], examples[400:]`. -/
def loadSplits {α : Type} (g : PRNG) (seed : Nat) (data : List α) :
    List α × List α × List α :=
  let examples := pyShuffle g seed data
  (examples.take 100, (examples.drop 100).take 300, examples.drop 400)

/-! ## Concrete instances used by witnesses -/

/-- A reasoning oracle that always selects `finish` with answer `"42"`. -/
def demoReact : ReactFn := fun _ => ⟨"use finish", "finish", [("answer", PyVal.vStr "42")]⟩

/-- A registry holding only the `finish` tool. -/
def demoFns : List (String × Tool) := [("finish", finishTool)]

/-- A reasoning oracle that selects a quoted name not in any registry. -/
def demoBadReact : ReactFn := fun _ => ⟨"r", "'unknown'", []⟩

/-- A tool that raises an exception immediately. -/
def demoFailTool : Tool := fun _ => ⟨0, ExecResult.exn "boom"⟩

/-- A reasoning oracle that always selects the failing tool. -/
def demoFailReact : ReactFn := fun _ => ⟨"r", "bad", []⟩

/-- A registry with the failing tool and `finish`. -/
def demoFailFns : List (String × Tool) := [("bad", demoFailTool), ("finish", finishTool)]

/-- The trajectory step of the one-step `finish` run. -/
def demoStep : Step :=
  ⟨"use finish", "finish", [("answer", PyVal.vStr "42")], PyVal.vStr "42", none⟩

/-- The prediction of the one-step `finish` run. -/
def demoPrediction : Prediction := ⟨PyVal.vStr "42", [demoStep]⟩

/-- A concrete deterministic generator for the shuffle witnesses. -/
def demoPRNG : PRNG where
  seedState := fun s => s
  randbelow := fun st n => (st % n, st + 1)
  randbelow_lt := fun _ _ hn => Nat.mod_lt _ hn

/-! ## Claim C1 -/

/-- C1 counterexample: a tool invocation running for 11 time-units makes the
wrapped call raise `FunctionTimedOut` to its caller — it does not return the
structured result `{return_value: null, errors: non-null}`. -/
theorem wrap_timeout_raises_counterexample :
    wrap_function_with_timeout ⟨11, ExecResult.ok (PyVal.vStr "x")⟩ =
      Except.error PyError.functionTimedOut ∧
    (wrap_function_with_timeout ⟨11, ExecResult.ok (PyVal.vStr "x")⟩).toOption = none :=
  ⟨rfl, rfl⟩

/-- C1 (amended): an exception raised by the tool within the 10-unit budget
degrades to `{return_value: null, errors: non-null}` without raising, an
in-time return produces `{return_value: v, errors: null}`, but an execution
exceeding the timeout raises `FunctionTimedOut` (a `BaseException` the
wrapper's `except Exception` cannot catch) to the caller. -/
theorem wrap_timeout_amended :
    (∀ (te : ToolExec) (msg : String), te.duration ≤ 10 →
      te.result = ExecResult.exn msg →
      wrap_function_with_timeout te = Except.ok ⟨PyVal.vNone, some msg⟩) ∧
    (∀ (te : ToolExec) (v : PyVal), te.duration ≤ 10 →
      te.result = ExecResult.ok v →
      wrap_function_with_timeout te = Except.ok ⟨v, none⟩) ∧
    (∀ te : ToolExec, 10 < te.duration →
      wrap_function_with_timeout te = Except.error PyError.functionTimedOut) := by
  refine ⟨?_, ?_, ?_⟩
  · intro te msg hdur hres
    unfold wrap_function_with_timeout
    rw [if_neg (by omega), hres]
  · intro te v hdur hres
    unfold wrap_function_with_timeout
    rw [if_neg (by omega), hres]
  · intro te hdur
    unfold wrap_function_with_timeout
    rw [if_pos (by omega)]

/-- Witness for C1's amended theorem at concrete invocations. -/
theorem wrap_timeout_amended_witness :
    wrap_function_with_timeout ⟨3, ExecResult.exn "boom"⟩ =
      Except.ok ⟨PyVal.vNone, some "boom"⟩ ∧
    wrap_function_with_timeout ⟨3, ExecResult.ok (PyVal.vInt 7)⟩ =
      Except.ok ⟨PyVal.vInt 7, none⟩ ∧
    wrap_function_with_timeout ⟨11, ExecResult.exn "slow"⟩ =
      Except.error PyError.functionTimedOut :=
  ⟨wrap_timeout_amended.1 ⟨3, ExecResult.exn "boom"⟩ "boom" (by decide) rfl,
   wrap_timeout_amended.2.1 ⟨3, ExecResult.ok (PyVal.vInt 7)⟩ (PyVal.vInt 7) (by decide) rfl,
   wrap_timeout_amended.2.2 ⟨11, ExecResult.exn "slow"⟩ (by decide)⟩

/-! ## Claim C2 -/

/-- C2 counterexample: with gold answer `"10"` and predicted answer `"1"` the
code's metric returns `true`, yet under the normalization the claim
describes (strip only a trailing `".0"` suffix) the two answers remain
distinct — `rstrip(".0")` strips all trailing `'.'`/`'0'` characters, not
just the two-character suffix. -/
theorem metric_suffix_counterexample :
    metric "10" "1" = true ∧ specSuffixNorm "10" ≠ specSuffixNorm "1" := by
  exact ⟨by decide, by decide⟩

/-! ## Claim C9 -/

/-- C9: if the reasoning component returns a `next_selected_fn` that, after
stripping the surrounding quote characters, is not a key of the example's
`functions` mapping, the loop body raises `KeyError` out of `Agent.forward`
(no error step is recorded, no `Prediction` is returned). -/
theorem forward_unknown_fn_keyerror (react : ReactFn)
    (functions : List (String × Tool)) (fuel : Nat) (traj : List Step)
    (last : Option FnOutput)
    (h : pyDictGet functions (stripQuotes (react traj).next_selected_fn) = none) :
    forwardLoop react functions (fuel + 1) traj last =
      Except.error (PyError.keyError (stripQuotes (react traj).next_selected_fn)) := by
  rw [forwardLoop]
  simp only [h]

/-- Witness for C9: the quoted name `'unknown'` against a registry holding
only `finish`. -/
theorem forward_unknown_fn_keyerror_witness :
    forwardLoop demoBadReact demoFns 1 [] none =
      Except.error (PyError.keyError "unknown") :=
  forward_unknown_fn_keyerror demoBadReact demoFns 0 [] none (by rfl)

/-! ## Claim C10 -/

/-- C10: constructed with `max_steps ≤ 0`, the `for` loop body never runs,
so building the final `Prediction` reads the never-bound local `fn_output`
and `Agent.forward` raises `UnboundLocalError` for every input instead of
returning a `Prediction` with an empty trajectory. -/
theorem forward_nonpositive_max_steps_raises (ag : Agent) (react : ReactFn)
    (functions : List (String × Tool)) (h : ag.max_steps ≤ 0) :
    ag.forward react functions = Except.error (PyError.nameError "fn_output") := by
  unfold Agent.forward
  rw [Int.toNat_of_nonpos h]
  rfl

/-- Witness for C10 at `max_steps = 0`. -/
theorem forward_nonpositive_max_steps_raises_witness :
    Agent.forward ⟨0⟩ demoReact demoFns =
      Except.error (PyError.nameError "fn_output") :=
  forward_nonpositive_max_steps_raises ⟨0⟩ demoReact demoFns (by decide)

/-! ## Claim C8 -/

/-- C8: with the same generator, seed and input dataset, two runs of the
dataset-loading stage produce identical train/dev/test partitions, and the
membership is fixed by index range over the seeded shuffle: the first 100
shuffled examples are the train split, the next 300 the dev split, and the
remainder the test split. -/
theorem loadSplits_deterministic {α : Type} (g : PRNG) (seed : Nat)
    (data : List α) (p₁ p₂ : List α × List α × List α)
    (h₁ : loadSplits g seed data = p₁) (h₂ : loadSplits g seed data = p₂) :
    p₁ = p₂ ∧
    p₁.1 = (pyShuffle g seed data).take 100 ∧
    p₁.2.1 = ((pyShuffle g seed data).drop 100).take 300 ∧
    p₁.2.2 = (pyShuffle g seed data).drop 400 := by
  subst h₁
  subst h₂
  exact ⟨rfl, rfl, rfl, rfl⟩

/-- Witness for C8 on a concrete three-element dataset. -/
theorem loadSplits_deterministic_witness :
    (([30, 20, 10], [], []) : List Nat × List Nat × List Nat) =
      ([30, 20, 10], [], []) ∧
    ([30, 20, 10] : List Nat) = (pyShuffle demoPRNG 0 [10, 20, 30]).take 100 ∧
    ([] : List Nat) = ((pyShuffle demoPRNG 0 [10, 20, 30]).drop 100).take 300 ∧
    ([] : List Nat) = (pyShuffle demoPRNG 0 [10, 20, 30]).drop 400 :=
  loadSplits_deterministic demoPRNG 0 [10, 20, 30]
    ([30, 20, 10], [], []) ([30, 20, 10], [], []) rfl rfl

/-! ## Claim C3 -/

/-- Each loop iteration appends at most one step, so a returned trajectory
grows by at most the remaining fuel. -/
lemma forwardLoop_length_le (react : ReactFn) (functions : List (String × Tool)) :
    ∀ (fuel : Nat) (traj : List Step) (last : Option FnOutput) (p : Prediction),
      forwardLoop react functions fuel traj last = Except.ok p →
      p.trajectory.length ≤ traj.length + fuel := by
  intro fuel
  induction fuel with
  | zero =>
    intro traj last p h
    cases last with
    | none => simp [forwardLoop] at h
    | some out =>
      simp [forwardLoop] at h
      subst h
      simp
  | succ n ih =>
    intro traj last p h
    rw [forwardLoop] at h
    split at h
    · exact absurd h (by simp)
    · split at h
      · exact absurd h (by simp)
      · split at h
        · simp only [Except.ok.injEq] at h
          subst h
          simp
        · have := ih _ _ _ h
          simp only [List.length_append, List.length_cons, List.length_nil] at this
          omega

/-- C3: whenever `Agent.forward` returns a `Prediction`, its trajectory has
length at most the configured `max_steps` (both as the `range` bound
actually iterated and as the configured integer), and the loop terminates
after at most `max_steps` iterations since the recursion is structural on
that fuel — `finish` being selected or not. -/
theorem forward_trajectory_length_le (ag : Agent) (react : ReactFn)
    (functions : List (String × Tool)) (p : Prediction)
    (h : ag.forward react functions = Except.ok p) :
    p.trajectory.length ≤ ag.max_steps.toNat ∧
      (p.trajectory.length : Int) ≤ ag.max_steps := by
  have h1 := forwardLoop_length_le react functions ag.max_steps.toNat [] none p h
  simp only [List.length_nil, Nat.zero_add] at h1
  refine ⟨h1, ?_⟩
  rcases le_or_lt ag.max_steps 0 with hle | hpos
  · rw [Agent.forward, Int.toNat_of_nonpos hle] at h
    simp [forwardLoop] at h
  · have h2 : (ag.max_steps.toNat : Int) = ag.max_steps :=
      Int.toNat_of_nonneg (le_of_lt hpos)
    omega

/-- Witness for C3 on a concrete two-step agent that finishes in one step. -/
theorem forward_trajectory_length_le_witness :
    demoPrediction.trajectory.length ≤ (2 : Int).toNat ∧
      (demoPrediction.trajectory.length : Int) ≤ (2 : Int) :=
  forward_trajectory_length_le ⟨2⟩ demoReact demoFns demoPrediction (by rfl)

/-! ## Claim C4 -/

/-- C4: whenever the stripped selected tool name is the sentinel `"finish"`
and the registry maps `"finish"` to the echo tool (as the example
preparation always arranges), the loop appends that step and returns
immediately — the trajectory is extended by exactly this one step, no
further iteration happens for any remaining fuel, and the `Prediction`'s
answer is exactly the string argument that was passed to `finish`. -/
theorem forward_finish_terminates (react : ReactFn)
    (functions : List (String × Tool)) (fuel : Nat) (traj : List Step)
    (last : Option FnOutput) (s : String)
    (hsel : stripQuotes (react traj).next_selected_fn = "finish")
    (hargs : (react traj).args = [("answer", PyVal.vStr s)])
    (hfin : pyDictGet functions "finish" = some finishTool) :
    forwardLoop react functions (fuel + 1) traj last =
      Except.ok ⟨PyVal.vStr s, traj ++
        [⟨(react traj).reasoning, "finish", (react traj).args,
          PyVal.vStr s, none⟩]⟩ := by
  rw [forwardLoop]
  simp only [hsel, hfin, hargs, finishTool, wrap_function_with_timeout]
  norm_num

/-- Witness for C4: the one-step `finish` run with answer `"42"`. -/
theorem forward_finish_terminates_witness :
    forwardLoop demoReact demoFns 1 [] none =
      Except.ok ⟨PyVal.vStr "42",
        [⟨"use finish", "finish", [("answer", PyVal.vStr "42")],
          PyVal.vStr "42", none⟩]⟩ :=
  forward_finish_terminates demoReact demoFns 0 [] none "42"
    (by rfl) (by rfl) (by rfl)

/-! ## Claim C5 -/

/-- C5: when the invoked tool raises an exception within the time budget,
the step appended to the trajectory records `return_value = null` and the
exception message as a non-null `errors` string, and the loop then simply
proceeds — to the next iteration with one unit of fuel consumed (no retry of
the failed call, no abort), or to the normal `finish` return if the failed
tool was `finish` itself. -/
theorem forward_exception_step_continues (react : ReactFn)
    (functions : List (String × Tool)) (fuel : Nat) (traj : List Step)
    (last : Option FnOutput) (tool : Tool) (msg : String)
    (hlook : pyDictGet functions (stripQuotes (react traj).next_selected_fn) =
      some tool)
    (hdur : (tool (react traj).args).duration ≤ 10)
    (hexn : (tool (react traj).args).result = ExecResult.exn msg) :
    forwardLoop react functions (fuel + 1) traj last =
      (if stripQuotes (react traj).next_selected_fn = "finish" then
        Except.ok ⟨PyVal.vNone, traj ++
          [⟨(react traj).reasoning, stripQuotes (react traj).next_selected_fn,
            (react traj).args, PyVal.vNone, some msg⟩]⟩
      else
        forwardLoop react functions fuel
          (traj ++
            [⟨(react traj).reasoning, stripQuotes (react traj).next_selected_fn,
              (react traj).args, PyVal.vNone, some msg⟩])
          (some ⟨PyVal.vNone, some msg⟩)) := by
  have hw : wrap_function_with_timeout (tool (react traj).args) =
      Except.ok ⟨PyVal.vNone, some msg⟩ := by
    unfold wrap_function_with_timeout
    rw [if_neg (by omega), hexn]
  rw [forwardLoop]
  simp only [hlook, hw]

/-- Witness for C5: a tool that raises `"boom"` at once; with one unit of
fuel left the loop continues into the fuel-exhausted return, yielding the
errored step in the trajectory rather than aborting. -/
theorem forward_exception_step_continues_witness :
    forwardLoop demoFailReact demoFailFns 1 [] none =
      (if stripQuotes (demoFailReact []).next_selected_fn = "finish" then
        Except.ok ⟨PyVal.vNone,
          [⟨(demoFailReact []).reasoning,
            stripQuotes (demoFailReact []).next_selected_fn,
            (demoFailReact []).args, PyVal.vNone, some "boom"⟩]⟩
      else
        forwardLoop demoFailReact demoFailFns 0
          [⟨(demoFailReact []).reasoning,
            stripQuotes (demoFailReact []).next_selected_fn,
            (demoFailReact []).args, PyVal.vNone, some "boom"⟩]
          (some ⟨PyVal.vNone, some "boom"⟩)) :=
  forward_exception_step_continues demoFailReact demoFailFns 0 [] none
    demoFailTool "boom" (by rfl) (by decide) (by rfl)

/-! ## Character-level lemmas for the metric claims -/

/-- Two characters differing at most in letter case. -/
def caseVariantB (c d : Char) : Bool :=
  c == d || (c.isAlpha && d.isAlpha && c.toLower == d.toLower)

/-- Two character lists differing only in letter case, position by
position. -/
def caseVariantsL : List Char → List Char → Bool
  | [], [] => true
  | c :: cs, d :: ds => caseVariantB c d && caseVariantsL cs ds
  | _, _ => false

/-- Two strings differing only in letter case. -/
def caseVariants (a b : String) : Bool :=
  caseVariantsL a.toList b.toList

lemma contains_dotzero_eq (c : Char) :
    ((['.', '0'] : List Char).contains c) = (c == '.' || c == '0') := by
  simp only [List.contains, List.elem]
  cases h1 : c == '.' <;> cases h2 : c == '0' <;> simp

lemma isAlpha_beq_false {c x : Char} (hc : c.isAlpha = true)
    (hx : x.isAlpha = false) : (c == x) = false := by
  by_cases h : c = x
  · subst h
    rw [hc] at hx
    exact absurd hx (by simp)
  · exact beq_eq_false_iff_ne.mpr h

lemma caseVariantB_elim {c d : Char} (h : caseVariantB c d = true) :
    c = d ∨ (c.isAlpha = true ∧ d.isAlpha = true ∧ c.toLower = d.toLower) := by
  simp only [caseVariantB, Bool.or_eq_true, Bool.and_eq_true, beq_iff_eq] at h
  tauto

lemma caseVariantB_toLower {c d : Char} (h : caseVariantB c d = true) :
    c.toLower = d.toLower := by
  rcases caseVariantB_elim h with h | h
  · rw [h]
  · exact h.2.2

lemma caseVariantB_dotzero {c d : Char} (h : caseVariantB c d = true) :
    ((['.', '0'] : List Char).contains c) =
      ((['.', '0'] : List Char).contains d) := by
  rcases caseVariantB_elim h with h | ⟨hc, hd, _⟩
  · rw [h]
  · rw [contains_dotzero_eq, contains_dotzero_eq]
    rw [isAlpha_beq_false hc (by decide), isAlpha_beq_false hc (by decide),
        isAlpha_beq_false hd (by decide), isAlpha_beq_false hd (by decide)]

lemma caseVariantB_comma {c d : Char} (h : caseVariantB c d = true) :
    (!(c == ',')) = (!(d == ',')) := by
  rcases caseVariantB_elim h with h | ⟨hc, hd, _⟩
  · rw [h]
  · rw [isAlpha_beq_false hc (by decide), isAlpha_beq_false hd (by decide)]

lemma caseVariantsL_append_single : ∀ {a b : List Char} {c d : Char},
    caseVariantsL a b = true → caseVariantB c d = true →
    caseVariantsL (a ++ [c]) (b ++ [d]) = true := by
  intro a
  induction a with
  | nil =>
    intro b c d hab hcd
    cases b with
    | nil => simp [caseVariantsL, hcd]
    | cons e es => simp [caseVariantsL] at hab
  | cons x xs ih =>
    intro b c d hab hcd
    cases b with
    | nil => simp [caseVariantsL] at hab
    | cons y ys =>
      simp only [caseVariantsL, Bool.and_eq_true] at hab
      simp only [List.cons_append, caseVariantsL, Bool.and_eq_true]
      exact ⟨hab.1, ih hab.2 hcd⟩

lemma caseVariantsL_reverse : ∀ {a b : List Char},
    caseVariantsL a b = true →
    caseVariantsL a.reverse b.reverse = true := by
  intro a
  induction a with
  | nil =>
    intro b h
    cases b with
    | nil => exact h
    | cons y ys => simp [caseVariantsL] at h
  | cons x xs ih =>
    intro b h
    cases b with
    | nil => simp [caseVariantsL] at h
    | cons y ys =>
      simp only [caseVariantsL, Bool.and_eq_true] at h
      simp only [List.reverse_cons]
      exact caseVariantsL_append_single (ih h.2) h.1

lemma caseVariantsL_dropWhile (q : Char → Bool)
    (hq : ∀ c d, caseVariantB c d = true → q c = q d) :
    ∀ {a b : List Char}, caseVariantsL a b = true →
      caseVariantsL (a.dropWhile q) (b.dropWhile q) = true := by
  intro a
  induction a with
  | nil =>
    intro b h
    cases b with
    | nil => exact h
    | cons y ys => simp [caseVariantsL] at h
  | cons x xs ih =>
    intro b h
    cases b with
    | nil => simp [caseVariantsL] at h
    | cons y ys =>
      simp only [caseVariantsL, Bool.and_eq_true] at h
      have hxy := hq x y h.1
      cases hx : q x with
      | true =>
        rw [List.dropWhile_cons_of_pos hx,
            List.dropWhile_cons_of_pos (by rw [← hxy]; exact hx)]
        exact ih h.2
      | false =>
        rw [List.dropWhile_cons_of_neg (by simp [hx]),
            List.dropWhile_cons_of_neg (by simp [← hxy, hx])]
        simp only [caseVariantsL, Bool.and_eq_true]
        exact ⟨h.1, h.2⟩

lemma caseVariantsL_filter (p : Char → Bool)
    (hp : ∀ c d, caseVariantB c d = true → p c = p d) :
    ∀ {a b : List Char}, caseVariantsL a b = true →
      caseVariantsL (a.filter p) (b.filter p) = true := by
  intro a
  induction a with
  | nil =>
    intro b h
    cases b with
    | nil => exact h
    | cons y ys => simp [caseVariantsL] at h
  | cons x xs ih =>
    intro b h
    cases b with
    | nil => simp [caseVariantsL] at h
    | cons y ys =>
      simp only [caseVariantsL, Bool.and_eq_true] at h
      have hxy := hp x y h.1
      cases hx : p x with
      | true =>
        rw [List.filter_cons_of_pos hx,
            List.filter_cons_of_pos (by rw [← hxy]; exact hx)]
        simp only [caseVariantsL, Bool.and_eq_true]
        exact ⟨h.1, ih h.2⟩
      | false =>
        rw [List.filter_cons_of_neg (by simp [hx]),
            List.filter_cons_of_neg (by simp [← hxy, hx])]
        exact ih h.2

lemma caseVariantsL_map_toLower : ∀ {a b : List Char},
    caseVariantsL a b = true →
    a.map Char.toLower = b.map Char.toLower := by
  intro a
  induction a with
  | nil =>
    intro b h
    cases b with
    | nil => rfl
    | cons y ys => simp [caseVariantsL] at h
  | cons x xs ih =>
    intro b h
    cases b with
    | nil => simp [caseVariantsL] at h
    | cons y ys =>
      simp only [caseVariantsL, Bool.and_eq_true] at h
      simp only [List.map_cons]
      rw [caseVariantB_toLower h.1, ih h.2]

/-- Case variants normalize identically under the code's pipeline. -/
lemma answerNorm_eq_of_caseVariants {a b : String}
    (h : caseVariants a b = true) : answerNorm a = answerNorm b := by
  unfold answerNorm pyLower pyRemoveChar pyRstrip
  have h1 := caseVariantsL_reverse h
  have h2 := caseVariantsL_dropWhile (fun c => (['.', '0'] : List Char).contains c)
    (fun c d hcd => caseVariantB_dotzero hcd) h1
  have h3 := caseVariantsL_reverse h2
  have h4 := caseVariantsL_filter (fun d => !(d == ','))
    (fun c d hcd => caseVariantB_comma hcd) h3
  have h5 := caseVariantsL_map_toLower h4
  simp only [String.toList] at h5 ⊢
  rw [h5]

/-! ## Claim C6 -/

/-- C6: the metric ignores formatting noise — gold `"3.0"` matches
prediction `"3"`, gold `"3,000"` matches prediction `"3000"`, and any two
answers differing only in letter case compare equal. -/
theorem metric_formatting_noise :
    metric "3.0" "3" = true ∧ metric "3,000" "3000" = true ∧
    ∀ a b : String, caseVariants a b = true → metric a b = true := by
  refine ⟨by decide, by decide, ?_⟩
  intro a b h
  unfold metric
  rw [answerNorm_eq_of_caseVariants h]
  simp

/-- Witness for C6's case-insensitivity part at a concrete pair. -/
theorem metric_formatting_noise_witness :
    caseVariants "AbC" "aBc" = true ∧ metric "AbC" "aBc" = true :=
  ⟨by decide, metric_formatting_noise.2.2 "AbC" "aBc" (by decide)⟩

/-! ## Claim C2 (amended) -/

lemma stripTrailingDotZero_eq (l : List Char) :
    stripTrailingDotZero l =
      (l.reverse.dropWhile (fun c => (['.', '0'] : List Char).contains c)).reverse := by
  induction l with
  | nil => rfl
  | cons c cs ih =>
    rw [stripTrailingDotZero, List.reverse_cons, List.dropWhile_append]
    cases hE : (cs.reverse.dropWhile
        (fun c => (['.', '0'] : List Char).contains c)).isEmpty with
    | true =>
      have hnil : cs.reverse.dropWhile
          (fun c => (['.', '0'] : List Char).contains c) = [] := by
        cases hd : cs.reverse.dropWhile
            (fun c => (['.', '0'] : List Char).contains c) with
        | nil => rfl
        | cons z zs => rw [hd] at hE; simp at hE
      simp only [hE, if_true]
      rw [ih, hnil]
      cases hq : (c == '.' || c == '0') with
      | true =>
        rw [List.dropWhile_cons_of_pos
          (by show (['.', '0'] : List Char).contains c = true
              rw [contains_dotzero_eq]; exact hq)]
        simp [hq]
      | false =>
        rw [List.dropWhile_cons_of_neg
          (by show ¬ (['.', '0'] : List Char).contains c = true
              rw [contains_dotzero_eq]; simp [hq])]
        simp [hq]
    | false =>
      rw [if_neg (show ¬ (false = true) by decide)]
      rw [ih]
      have hEmpty : ((cs.reverse.dropWhile
          (fun c => (['.', '0'] : List Char).contains c)).reverse).isEmpty = false := by
        cases hd : cs.reverse.dropWhile
            (fun c => (['.', '0'] : List Char).contains c) with
        | nil => rw [hd] at hE; simp at hE
        | cons z zs => simp
      rw [hEmpty]
      simp

/-- The code's normalization equals the amended description (strip all
trailing `'.'`/`'0'` characters, remove commas, lowercase). -/
lemma answerNorm_eq_amendedNorm (s : String) : answerNorm s = amendedNorm s := by
  unfold answerNorm amendedNorm pyLower pyRemoveChar pyRstrip
  rw [stripTrailingDotZero_eq]
  rfl

/-- C2 (amended): the metric returns `true` exactly when the two answers are
equal after stripping ALL trailing `'.'` and `'0'` characters (not only a
single `".0"` suffix), removing commas, and lowercasing. -/
theorem metric_rstrip_iff (a b : String) :
    metric a b = true ↔ amendedNorm a = amendedNorm b := by
  unfold metric
  rw [beq_iff_eq, answerNorm_eq_amendedNorm, answerNorm_eq_amendedNorm]
  exact eq_comm

/-- Witness for C2's amended theorem at a concrete pair. -/
theorem metric_rstrip_iff_witness :
    metric "3,000" "3000" = true ↔ amendedNorm "3,000" = amendedNorm "3000" :=
  metric_rstrip_iff "3,000" "3000"

/-! ## Claim C7 -/

lemma pyDictGet_dictSet {α : Type} (d : List (String × α)) (k : String) (v : α) :
    pyDictGet (dictSet d k v) k = some v := by
  induction d with
  | nil => simp [dictSet, pyDictGet]
  | cons kv rest ih =>
    obtain ⟨k', v'⟩ := kv
    by_cases h : k' = k
    · subst h
      simp [dictSet, pyDictGet]
    · rw [dictSet, if_neg h, pyDictGet, if_neg h]
      exact ih

lemma processEntry_skip (execEnv : String → List (String × PyObj))
    (st : RegistryState) (code : String)
    (h : parseFnName (cleanCode code) = none) :
    processEntry execEnv st code = Except.ok st := by
  simp only [processEntry, h]

lemma processEntries_skip (execEnv : String → List (String × PyObj))
    (bad : String) (hbad : parseFnName (cleanCode bad) = none) :
    ∀ (pre : List String) (st : RegistryState) (post : List String),
      processEntries execEnv st (pre ++ bad :: post) =
        processEntries execEnv st (pre ++ post) := by
  intro pre
  induction pre with
  | nil =>
    intro st post
    simp only [List.nil_append]
    rw [processEntries, processEntry_skip execEnv st bad hbad]
  | cons x xs ih =>
    intro st post
    simp only [List.cons_append]
    rw [processEntries, processEntries]
    cases processEntry execEnv st x with
    | error e => rfl
    | ok st' => exact ih st' post

/-- C7: an entry whose cleaned source matches no leading `def <name>(`
pattern is silently skipped — building `func_dict` over a list containing it
gives exactly the result of building without it, registering nothing for it
and failing nothing — while an entry with a parseable name whose compiled
code yields a callable object (and no duplicate identity) is registered in
`func_dict` under that name. -/
theorem func_dict_parse_skip_register :
    (∀ (execEnv : String → List (String × PyObj)) (pre post : List String)
        (bad : String), parseFnName (cleanCode bad) = none →
      buildFuncDict execEnv (pre ++ bad :: post) =
        buildFuncDict execEnv (pre ++ post)) ∧
    (∀ (execEnv : String → List (String × PyObj)) (st : RegistryState)
        (code fn_name : String) (fn_obj : PyObj),
      parseFnName (cleanCode code) = some fn_name →
      pyDictGet (execEnv (cleanCode code)) fn_name = some fn_obj →
      fn_obj.isCallable = true →
      st.fns2code.any (fun e => e.1 == fn_obj) = false →
      processEntry execEnv st code =
        Except.ok ⟨dictSet st.func_dict fn_name fn_obj,
          st.fns2code ++ [(fn_obj, fn_name, cleanCode code)]⟩ ∧
      pyDictGet (dictSet st.func_dict fn_name fn_obj) fn_name = some fn_obj) := by
  constructor
  · intro execEnv pre post bad hbad
    unfold buildFuncDict
    rw [processEntries_skip execEnv bad hbad]
  · intro execEnv st code fn_name fn_obj hparse hexec hcall hdup
    refine ⟨?_, pyDictGet_dictSet _ _ _⟩
    simp only [processEntry, hparse, hexec, hcall, hdup]
    rfl

/-- Oracle under which `exec` defines nothing. -/
def emptyExecEnv : String → List (String × PyObj) := fun _ => []

/-- Oracle under which `exec` binds `foo` to callable object 1. -/
def demoExecEnv : String → List (String × PyObj) := fun _ => [("foo", ⟨1, true⟩)]

/-- Witness for C7: the unparseable entry `"x = 3"` is skipped; the entry
`"def foo(x): return x"` is registered under `"foo"`. -/
theorem func_dict_parse_skip_register_witness :
    buildFuncDict emptyExecEnv ["x = 3"] = buildFuncDict emptyExecEnv [] ∧
    (processEntry demoExecEnv ⟨[], []⟩ "def foo(x): return x" =
      Except.ok ⟨dictSet ([] : List (String × PyObj)) "foo" ⟨1, true⟩,
        [((⟨1, true⟩ : PyObj), "foo", cleanCode "def foo(x): return x")]⟩ ∧
     pyDictGet (dictSet ([] : List (String × PyObj)) "foo" ⟨1, true⟩) "foo" =
       some ⟨1, true⟩) :=
  ⟨func_dict_parse_skip_register.1 emptyExecEnv [] [] "x = 3" (by rfl),
   func_dict_parse_skip_register.2 demoExecEnv ⟨[], []⟩ "def foo(x): return x"
     "foo" ⟨1, true⟩ (by rfl) (by rfl) (by rfl) (by rfl)⟩

end ToolUse
